import Mathlib

/-!
Shallow embedding of the SonyProjectorControl scripts (on.py, off.py,
query.py).  Strings are modelled as `List Char`.  Python's `None` for an
absent token is `Option`.  The two regexes

  STATUS_RE      = r"var\s+info_status_value\s*=\s*\[([^\]]*)\]"   (IGNORECASE)
  QUOTED_ITEM_RE = r"'([^']*)'"

are deterministic (the only starred classes are complemented single
characters followed by a mandatory literal), so they are embedded as
character scans with exactly Python's leftmost-match / findall semantics.
Time is modelled discretely: only `time.sleep(POLL_INTERVAL)` advances the
clock, and a status oracle `statusAt : Nat → List Char` gives the value
`get_status` would return at each instant.
-/

/-- Python regex `\s` / `str.strip` whitespace, restricted to ASCII. -/
def isSpace (c : Char) : Bool :=
  c = ' ' || c = '\t' || c = '\n' || c = '\r' || c = Char.ofNat 11 || c = Char.ofNat 12

/-- Python `s.strip()`. -/
def pyStrip (s : List Char) : List Char :=
  ((s.dropWhile isSpace).reverse.dropWhile isSpace).reverse

/-- Python `s.upper()` (ASCII letters, all this device emits). -/
def pyUpper (s : List Char) : List Char := s.map Char.toUpper

/-- Python `pat in s` (substring test). -/
def substrB (pat : List Char) (s : List Char) : Bool :=
  match s with
  | [] => pat.isEmpty
  | _ :: rest => pat.isPrefixOf s || substrB pat rest

/-- Case-insensitive literal match (re.IGNORECASE): consume `pat` from the
front of `s`, returning the rest. -/
def matchCI : List Char → List Char → Option (List Char)
  | [], s => some s
  | _ :: _, [] => none
  | p :: ps, c :: cs => if p.toLower = c.toLower then matchCI ps cs else none

/-- Regex `\s+` (greedy, followed by a non-space literal, hence maximal run). -/
def ws1 : List Char → Option (List Char)
  | [] => none
  | c :: cs => if isSpace c then some (cs.dropWhile isSpace) else none

/-- Regex `\s*` in the same (deterministic) position. -/
def wsStar (s : List Char) : List Char := s.dropWhile isSpace

/-- Regex `([^\]]*)\]`: capture up to the first `]`, fail if there is none. -/
def captureToRBracket : List Char → Option (List Char × List Char)
  | [] => none
  | c :: cs =>
    if c = ']' then some ([], cs)
    else
      match captureToRBracket cs with
      | some (g, r) => some (c :: g, r)
      | none => none

/-- Attempt STATUS_RE at the start of `s`; on success return the capture
group and the rest of the input after the match. -/
def matchStatusAt (s : List Char) : Option (List Char × List Char) :=
  match matchCI "var".toList s with
  | none => none
  | some s1 =>
    match ws1 s1 with
    | none => none
    | some s2 =>
      match matchCI "info_status_value".toList s2 with
      | none => none
      | some s3 =>
        match matchCI "=".toList (wsStar s3) with
        | none => none
        | some s5 =>
          match matchCI "[".toList (wsStar s5) with
          | none => none
          | some s7 => captureToRBracket s7

/-- Embeds `STATUS_RE.search`: leftmost match, returning `m.group(1)`. -/
def searchStatus : List Char → Option (List Char)
  | [] => none
  | c :: rest =>
    match matchStatusAt (c :: rest) with
    | some (g, _) => some g
    | none => searchStatus rest

/-- Embeds `QUOTED_ITEM_RE.findall`: non-overlapping `'([^']*)'` matches in
order; `acc = some a` means a quote is open with reversed contents `a`. -/
def scanQuoted : List Char → Option (List Char) → List (List Char)
  | [], _ => []
  | c :: cs, none => if c = '\'' then scanQuoted cs (some []) else scanQuoted cs none
  | c :: cs, some acc =>
    if c = '\'' then acc.reverse :: scanQuoted cs none else scanQuoted cs (some (c :: acc))

/-- Embeds `html.replace("\r", "").replace("\n", "")`. -/
def compactHtml (s : List Char) : List Char :=
  s.filter (fun c => !(c = '\r' || c = '\n'))

/-- Session outcome reported by an on/off entry point. -/
inductive Outcome where
  | alreadySatisfied
  | converged
  | timedOut
deriving DecidableEq

/-- Result of one polling loop: did it converge, how many status polls it
performed, and the elapsed time when it stopped. -/
structure PollResult where
  converged : Bool
  polls : Nat
  finalElapsed : Nat
deriving DecidableEq

/-- Observable summary of one on/off session: outcome, number of toggle
requests sent, number of in-loop status polls, final elapsed time. -/
structure MainResult where
  outcome : Outcome
  toggles : Nat
  polls : Nat
  finalElapsed : Nat
deriving DecidableEq

namespace OnPy

def POLL_INTERVAL : Nat := 3
def MAX_WAIT : Nat := 90

/-- on.py `parse_info_status`: first element of the `info_status_value`
JS array, or None. -/
def parse_info_status (html : List Char) : Option (List Char) :=
  match searchStatus (compactHtml html) with
  | none => none
  | some array_content => (scanQuoted array_content none).head?

/-- on.py `normalize_status` (note: no `POWER ON` entry in this file). -/
def normalize_status (s : Option (List Char)) : List Char :=
  match s with
  | none => "UNKNOWN".toList
  | some t =>
    let up := pyUpper (pyStrip t)
    if up = "ON".toList ∨ up = "STARTUP".toList ∨ up = "STARTUP1".toList ∨
        up = "STARTUP2".toList then "ON".toList
    else if up = "OFF".toList ∨ up = "STANDBY".toList then "OFF".toList
    else if substrB "COOL".toList up || substrB "WARM".toList up then "COOLING".toList
    else "UNKNOWN".toList

/-- on.py polling loop.  `fuel` bounds the iteration count; `main` passes
`MAX_WAIT / POLL_INTERVAL`, which is exact because each iteration advances
`elapsed` by `POLL_INTERVAL`, so the `fuel = 0` base case is only reached
with `elapsed ≥ MAX_WAIT`, where it returns the same result as the
deadline test. -/
def pollLoopF (statusAt : Nat → List Char) : Nat → Nat → PollResult
  | 0, elapsed => ⟨false, 0, elapsed⟩
  | fuel + 1, elapsed =>
    if elapsed < MAX_WAIT then
      let e := elapsed + POLL_INTERVAL
      if statusAt e = "ON".toList then ⟨true, 1, e⟩
      else
        let r := pollLoopF statusAt fuel e
        ⟨r.converged, r.polls + 1, r.finalElapsed⟩
    else ⟨false, 0, elapsed⟩

/-- on.py `main`, abstracted over the status oracle: if already ON exit,
else send one toggle and poll until ON or timeout. -/
def main (statusAt : Nat → List Char) : MainResult :=
  let status := statusAt 0
  if status = "ON".toList then ⟨Outcome.alreadySatisfied, 0, 0, 0⟩
  else
    let r := pollLoopF statusAt (MAX_WAIT / POLL_INTERVAL) 0
    if r.converged then ⟨Outcome.converged, 1, r.polls, r.finalElapsed⟩
    else ⟨Outcome.timedOut, 1, r.polls, r.finalElapsed⟩

end OnPy

namespace OffPy

def POLL_INTERVAL : Nat := 5
def MAX_WAIT : Nat := 180

/-- off.py `parse_info_status` (same body as on.py's). -/
def parse_info_status (html : List Char) : Option (List Char) :=
  match searchStatus (compactHtml html) with
  | none => none
  | some array_content => (scanQuoted array_content none).head?

/-- off.py `normalize_status`: ON tuple additionally holds `POWER ON`. -/
def normalize_status (s : Option (List Char)) : List Char :=
  match s with
  | none => "UNKNOWN".toList
  | some t =>
    let up := pyUpper (pyStrip t)
    if up = "ON".toList ∨ up = "STARTUP".toList ∨ up = "STARTUP1".toList ∨
        up = "STARTUP2".toList ∨ up = "POWER ON".toList then "ON".toList
    else if up = "OFF".toList ∨ up = "STANDBY".toList then "OFF".toList
    else if substrB "COOL".toList up || substrB "WARM".toList up then "COOLING".toList
    else "UNKNOWN".toList

/-- off.py polling loop (interval 5, deadline 180); fuel as in `OnPy.pollLoopF`. -/
def pollLoopF (statusAt : Nat → List Char) : Nat → Nat → PollResult
  | 0, elapsed => ⟨false, 0, elapsed⟩
  | fuel + 1, elapsed =>
    if elapsed < MAX_WAIT then
      let e := elapsed + POLL_INTERVAL
      if statusAt e = "OFF".toList then ⟨true, 1, e⟩
      else
        let r := pollLoopF statusAt fuel e
        ⟨r.converged, r.polls + 1, r.finalElapsed⟩
    else ⟨false, 0, elapsed⟩

/-- off.py `main`: exit at once when OFF; toggle only when the normalized
status is exactly ON (COOLING and UNKNOWN fall through untoggled); poll
until OFF or timeout. -/
def main (statusAt : Nat → List Char) : MainResult :=
  let status := statusAt 0
  if status = "OFF".toList then ⟨Outcome.alreadySatisfied, 0, 0, 0⟩
  else
    let toggles := if status = "ON".toList then 1 else 0
    let r := pollLoopF statusAt (MAX_WAIT / POLL_INTERVAL) 0
    if r.converged then ⟨Outcome.converged, toggles, r.polls, r.finalElapsed⟩
    else ⟨Outcome.timedOut, toggles, r.polls, r.finalElapsed⟩

end OffPy

namespace QueryPy

/-- query.py `parse_info_status`: returns `(first element, all items)`. -/
def parse_info_status (html : List Char) : Option (List Char) × List (List Char) :=
  match searchStatus (compactHtml html) with
  | none => (none, [])
  | some array_content =>
    let items := scanQuoted array_content none
    (items.head?, items)

/-- query.py `normalize_status` (same body as off.py's). -/
def normalize_status (s : Option (List Char)) : List Char :=
  match s with
  | none => "UNKNOWN".toList
  | some t =>
    let up := pyUpper (pyStrip t)
    if up = "ON".toList ∨ up = "STARTUP".toList ∨ up = "STARTUP1".toList ∨
        up = "STARTUP2".toList ∨ up = "POWER ON".toList then "ON".toList
    else if up = "OFF".toList ∨ up = "STANDBY".toList then "OFF".toList
    else if substrB "COOL".toList up || substrB "WARM".toList up then "COOLING".toList
    else "UNKNOWN".toList

/-- query.py `main`, abstracted over the fetch result (`none` = a fetch
error caught as URLError/HTTPError).  Returns the printed status and the
process exit code. -/
def main (page : Option (List Char)) : List Char × Nat :=
  match page with
  | none => ("UNKNOWN".toList, 4)
  | some html =>
    let status := normalize_status (parse_info_status html).1
    let code :=
      if status = "ON".toList then 0
      else if status = "OFF".toList then 2
      else if status = "COOLING".toList then 3
      else 4
    (status, code)

end QueryPy

/-- The text of the status declaration used by the extraction claims. -/
def statusDecl : List Char := "var info_status_value = ['STARTUP2','ignored'];".toList

theorem matchCI_append (p : List Char) :
    ∀ s r q, matchCI p s = some r → matchCI p (s ++ q) = some (r ++ q) := by
  induction p with
  | nil =>
    intro s r q h
    simp only [matchCI, Option.some.injEq] at h
    subst h
    rfl
  | cons a ps ih =>
    intro s r q h
    cases s with
    | nil => exact absurd h (by simp [matchCI])
    | cons c cs =>
      by_cases hc : a.toLower = c.toLower
      · simp only [matchCI, List.cons_append, if_pos hc] at h ⊢
        exact ih cs r q h
      · simp only [matchCI, if_neg hc] at h
        exact Option.noConfusion h

theorem dropWhile_append_ne_nil (f : Char → Bool) (s q : List Char)
    (h : s.dropWhile f ≠ []) : (s ++ q).dropWhile f = s.dropWhile f ++ q := by
  induction s with
  | nil => exact absurd rfl h
  | cons c cs ih =>
    by_cases hc : f c
    · simp only [List.dropWhile_cons, hc, if_true] at h ⊢
      simp only [List.cons_append, List.dropWhile_cons, hc, if_true]
      exact ih h
    · simp only [List.cons_append, List.dropWhile_cons, hc, if_false, Bool.false_eq_true]

theorem ws1_append (s r q : List Char) (h : ws1 s = some r) (hr : r ≠ []) :
    ws1 (s ++ q) = some (r ++ q) := by
  cases s with
  | nil => simp [ws1] at h
  | cons c cs =>
    by_cases hc : isSpace c
    · simp only [ws1, if_pos hc, Option.some.injEq] at h
      subst h
      simp only [List.cons_append, ws1, if_pos hc, Option.some.injEq]
      exact dropWhile_append_ne_nil _ cs q hr
    · simp only [ws1, if_neg hc] at h
      exact Option.noConfusion h

theorem captureToRBracket_append :
    ∀ (s g r q : List Char), captureToRBracket s = some (g, r) →
      captureToRBracket (s ++ q) = some (g, r ++ q) := by
  intro s
  induction s with
  | nil => intro g r q h; simp [captureToRBracket] at h
  | cons c cs ih =>
    intro g r q h
    by_cases hc : c = ']'
    · simp only [captureToRBracket, if_pos hc, Option.some.injEq, Prod.mk.injEq] at h
      obtain ⟨hg, hr⟩ := h
      subst hg
      subst hr
      simp [captureToRBracket, List.cons_append, if_pos hc]
    · simp only [captureToRBracket, if_neg hc] at h
      cases hcs : captureToRBracket cs with
      | none => rw [hcs] at h; simp at h
      | some pr =>
        obtain ⟨g', r'⟩ := pr
        rw [hcs] at h
        simp only [Option.some.injEq, Prod.mk.injEq] at h
        obtain ⟨hg, hr⟩ := h
        subst hg
        subst hr
        have hrec := ih g' r' q hcs
        simp only [List.cons_append, captureToRBracket, if_neg hc, List.append_eq, hrec]

theorem matchStatusAt_append (s q g r : List Char) (h : matchStatusAt s = some (g, r)) :
    matchStatusAt (s ++ q) = some (g, r ++ q) := by
  unfold matchStatusAt at h ⊢
  split at h
  · exact Option.noConfusion h
  rename_i s1 heq1
  split at h
  · exact Option.noConfusion h
  rename_i s2 heq2
  split at h
  · exact Option.noConfusion h
  rename_i s3 heq3
  split at h
  · exact Option.noConfusion h
  rename_i s5 heq4
  split at h
  · exact Option.noConfusion h
  rename_i s7 heq5
  have hs2 : s2 ≠ [] := by
    intro hn
    rw [hn] at heq3
    rw [show matchCI "info_status_value".toList [] = none from by decide] at heq3
    exact Option.noConfusion heq3
  have hws3 : wsStar s3 ≠ [] := by
    intro hn
    rw [hn] at heq4
    rw [show matchCI "=".toList [] = none from by decide] at heq4
    exact Option.noConfusion heq4
  have hws5 : wsStar s5 ≠ [] := by
    intro hn
    rw [hn] at heq5
    rw [show matchCI "[".toList [] = none from by decide] at heq5
    exact Option.noConfusion heq5
  have e1 := matchCI_append _ s s1 q heq1
  have e2 := ws1_append s1 s2 q heq2 hs2
  have e3 := matchCI_append _ s2 s3 q heq3
  have e4 : wsStar (s3 ++ q) = wsStar s3 ++ q := dropWhile_append_ne_nil _ s3 q hws3
  have e5 := matchCI_append _ (wsStar s3) s5 q heq4
  have e6 : wsStar (s5 ++ q) = wsStar s5 ++ q := dropWhile_append_ne_nil _ s5 q hws5
  have e7 := matchCI_append _ (wsStar s5) s7 q heq5
  have e8 := captureToRBracket_append s7 g r q h
  simp only [e1, e2, e3, e4, e5, e6, e7, e8]

theorem searchStatus_of_prefix_none :
    ∀ (p s g r : List Char), matchStatusAt s = some (g, r) → s ≠ [] →
      (∀ i, i < p.length → matchStatusAt ((p ++ s).drop i) = none) →
      searchStatus (p ++ s) = some g := by
  intro p
  induction p with
  | nil =>
    intro s g r h hne _
    cases s with
    | nil => exact absurd rfl hne
    | cons c cs => simp only [List.nil_append, searchStatus, h]
  | cons c p' ih =>
    intro s g r h hne hpre
    have h0 := hpre 0 (by simp)
    simp only [List.cons_append, List.drop_zero] at h0
    have hrest := ih s g r h hne (fun i hi => by
      have hp := hpre (i + 1) (by simpa using Nat.succ_lt_succ hi)
      simpa using hp)
    simp only [List.cons_append, searchStatus, List.append_eq, h0, hrest]

theorem onPollLoopF_polls_pos (s : Nat → List Char) (fuel e : Nat) (h : e < OnPy.MAX_WAIT) :
    1 ≤ (OnPy.pollLoopF s (fuel + 1) e).polls := by
  rw [OnPy.pollLoopF, if_pos h]
  by_cases hs : s (e + OnPy.POLL_INTERVAL) = "ON".toList
  · rw [if_pos hs]
  · rw [if_neg hs]
    exact Nat.succ_le_succ (Nat.zero_le _)

theorem offPollLoopF_polls_pos (s : Nat → List Char) (fuel e : Nat) (h : e < OffPy.MAX_WAIT) :
    1 ≤ (OffPy.pollLoopF s (fuel + 1) e).polls := by
  rw [OffPy.pollLoopF, if_pos h]
  by_cases hs : s (e + OffPy.POLL_INTERVAL) = "OFF".toList
  · rw [if_pos hs]
  · rw [if_neg hs]
    exact Nat.succ_le_succ (Nat.zero_le _)

theorem onPollLoopF_never_on (s : Nat → List Char) (hs : ∀ n, s n ≠ "ON".toList) :
    ∀ fuel e, OnPy.MAX_WAIT ≤ e + OnPy.POLL_INTERVAL * fuel →
      (OnPy.pollLoopF s fuel e).converged = false ∧
      OnPy.MAX_WAIT ≤ (OnPy.pollLoopF s fuel e).finalElapsed := by
  intro fuel
  induction fuel with
  | zero =>
    intro e he
    simp only [OnPy.POLL_INTERVAL, OnPy.MAX_WAIT, Nat.mul_zero, Nat.add_zero] at he ⊢
    exact ⟨rfl, he⟩
  | succ f ih =>
    intro e he
    by_cases hg : e < OnPy.MAX_WAIT
    · rw [OnPy.pollLoopF, if_pos hg, if_neg (hs (e + OnPy.POLL_INTERVAL))]
      have hrec := ih (e + OnPy.POLL_INTERVAL) (by
        simp only [OnPy.MAX_WAIT, OnPy.POLL_INTERVAL] at he ⊢
        omega)
      exact ⟨hrec.1, hrec.2⟩
    · rw [OnPy.pollLoopF, if_neg hg]
      exact ⟨rfl, Nat.le_of_not_lt hg⟩

theorem off_main_not_off (statusAt : Nat → List Char) (h : statusAt 0 ≠ "OFF".toList) :
    (OffPy.main statusAt).toggles = (if statusAt 0 = "ON".toList then 1 else 0) ∧
    1 ≤ (OffPy.main statusAt).polls ∧
    (OffPy.main statusAt).outcome ≠ Outcome.alreadySatisfied := by
  have hp : 1 ≤ (OffPy.pollLoopF statusAt (OffPy.MAX_WAIT / OffPy.POLL_INTERVAL) 0).polls := by
    rw [show OffPy.MAX_WAIT / OffPy.POLL_INTERVAL = 35 + 1 from rfl]
    exact offPollLoopF_polls_pos statusAt 35 0 (by decide)
  simp only [OffPy.main, if_neg h]
  cases hcv : (OffPy.pollLoopF statusAt (OffPy.MAX_WAIT / OffPy.POLL_INTERVAL) 0).converged with
  | false =>
    rw [if_neg (show ¬(false = true) from fun hh => Bool.noConfusion hh)]
    exact ⟨rfl, hp, fun hc => Outcome.noConfusion hc⟩
  | true =>
    rw [if_pos (show true = true from rfl)]
    exact ⟨rfl, hp, fun hc => Outcome.noConfusion hc⟩

/-- C2 counterexample: with initial (and persistent) measured state UNKNOWN,
the power-off session sends zero toggles, not the one toggle the claim
requires. -/
theorem c2_unknown_zero_toggles_counterexample :
    (OffPy.main (fun _ => "UNKNOWN".toList)).toggles = 0 ∧
    ¬(OffPy.main (fun _ => "UNKNOWN".toList)).toggles = 1 := by decide

/-- C2 (amended): in power-off mode, an initial measured state of ON sends
exactly one toggle and then enters the polling loop (at least one in-loop
poll, no immediate already-satisfied exit); an initial state of UNKNOWN
sends zero toggles yet still enters the polling loop. -/
theorem c2_off_initial_toggle (statusAt : Nat → List Char) :
    (statusAt 0 = "ON".toList →
      (OffPy.main statusAt).toggles = 1 ∧ 1 ≤ (OffPy.main statusAt).polls ∧
      (OffPy.main statusAt).outcome ≠ Outcome.alreadySatisfied) ∧
    (statusAt 0 = "UNKNOWN".toList →
      (OffPy.main statusAt).toggles = 0 ∧ 1 ≤ (OffPy.main statusAt).polls ∧
      (OffPy.main statusAt).outcome ≠ Outcome.alreadySatisfied) := by
  constructor
  · intro h
    have hgen := off_main_not_off statusAt (by rw [h]; decide)
    rw [h, if_pos rfl] at hgen
    exact hgen
  · intro h
    have hgen := off_main_not_off statusAt (by rw [h]; decide)
    rw [h, if_neg (by decide)] at hgen
    exact hgen

theorem c2_off_initial_toggle_witness :
    ((OffPy.main (fun _ => "ON".toList)).toggles = 1 ∧
      1 ≤ (OffPy.main (fun _ => "ON".toList)).polls ∧
      (OffPy.main (fun _ => "ON".toList)).outcome ≠ Outcome.alreadySatisfied) ∧
    ((OffPy.main (fun _ => "UNKNOWN".toList)).toggles = 0 ∧
      1 ≤ (OffPy.main (fun _ => "UNKNOWN".toList)).polls ∧
      (OffPy.main (fun _ => "UNKNOWN".toList)).outcome ≠ Outcome.alreadySatisfied) :=
  ⟨(c2_off_initial_toggle (fun _ => "ON".toList)).1 rfl,
   (c2_off_initial_toggle (fun _ => "UNKNOWN".toList)).2 rfl⟩

/-- C3: in power-on mode with a status source that always reads OFF, the
session sends exactly one toggle (the model can only toggle before the
loop), times out, and stops only once elapsed time reaches MAX_WAIT. -/
theorem c3_on_always_off_times_out (statusAt : Nat → List Char)
    (h : ∀ n, statusAt n = "OFF".toList) :
    (OnPy.main statusAt).outcome = Outcome.timedOut ∧
    (OnPy.main statusAt).toggles = 1 ∧
    OnPy.MAX_WAIT ≤ (OnPy.main statusAt).finalElapsed := by
  have hne : ∀ n, statusAt n ≠ "ON".toList := fun n => by rw [h n]; decide
  have hloop := onPollLoopF_never_on statusAt hne (OnPy.MAX_WAIT / OnPy.POLL_INTERVAL) 0
    (by decide)
  simp only [OnPy.main, if_neg (hne 0)]
  rw [if_neg (show ¬((OnPy.pollLoopF statusAt (OnPy.MAX_WAIT / OnPy.POLL_INTERVAL) 0).converged = true) from by
    rw [hloop.1]; exact fun hh => Bool.noConfusion hh)]
  exact ⟨rfl, rfl, hloop.2⟩

theorem c3_on_always_off_times_out_witness :
    (OnPy.main (fun _ => "OFF".toList)).outcome = Outcome.timedOut ∧
    (OnPy.main (fun _ => "OFF".toList)).toggles = 1 ∧
    OnPy.MAX_WAIT ≤ (OnPy.main (fun _ => "OFF".toList)).finalElapsed :=
  c3_on_always_off_times_out (fun _ => "OFF".toList) (fun _ => rfl)

/-- C4: in power-off mode with initial state COOLING, the session sends
zero toggles yet still enters the polling loop (at least one in-loop poll,
no immediate already-satisfied exit). -/
theorem c4_off_cooling_guard (statusAt : Nat → List Char)
    (h : statusAt 0 = "COOLING".toList) :
    (OffPy.main statusAt).toggles = 0 ∧ 1 ≤ (OffPy.main statusAt).polls ∧
    (OffPy.main statusAt).outcome ≠ Outcome.alreadySatisfied := by
  have hgen := off_main_not_off statusAt (by rw [h]; decide)
  rw [h, if_neg (by decide)] at hgen
  exact hgen

theorem c4_off_cooling_guard_witness :
    (OffPy.main (fun _ => "COOLING".toList)).toggles = 0 ∧
    1 ≤ (OffPy.main (fun _ => "COOLING".toList)).polls ∧
    (OffPy.main (fun _ => "COOLING".toList)).outcome ≠ Outcome.alreadySatisfied :=
  c4_off_cooling_guard (fun _ => "COOLING".toList) rfl

/-- C5: in power-off mode with initial state OFF, the session reports
already-satisfied with zero toggles, zero in-loop polls (no fetch beyond
the initial check) and zero elapsed time. -/
theorem c5_off_short_circuit (statusAt : Nat → List Char)
    (h : statusAt 0 = "OFF".toList) :
    OffPy.main statusAt = ⟨Outcome.alreadySatisfied, 0, 0, 0⟩ := by
  unfold OffPy.main
  rw [h]
  exact rfl

theorem c5_off_short_circuit_witness :
    OffPy.main (fun _ => "OFF".toList) = ⟨Outcome.alreadySatisfied, 0, 0, 0⟩ :=
  c5_off_short_circuit (fun _ => "OFF".toList) rfl

/-- C1 counterexample: the raw token `POWER ON` normalizes to UNKNOWN, not
ON, in the power-on entry point (on.py's tuple lacks `POWER ON`). -/
theorem c1_power_on_counterexample :
    OnPy.normalize_status (some "POWER ON".toList) = "UNKNOWN".toList ∧
    ¬OnPy.normalize_status (some "POWER ON".toList) = "ON".toList := by decide

/-- C1 (amended): tokens whose trimmed upper-case form is ON, STARTUP,
STARTUP1 or STARTUP2 normalize to ON in all three entry points; a token
whose trimmed upper-case form is `POWER ON` normalizes to ON in off.py and
query.py but to UNKNOWN in on.py. -/
theorem c1_on_tokens_normalize (t : List Char) :
    (pyUpper (pyStrip t) = "ON".toList ∨ pyUpper (pyStrip t) = "STARTUP".toList ∨
        pyUpper (pyStrip t) = "STARTUP1".toList ∨ pyUpper (pyStrip t) = "STARTUP2".toList →
      OnPy.normalize_status (some t) = "ON".toList ∧
      OffPy.normalize_status (some t) = "ON".toList ∧
      QueryPy.normalize_status (some t) = "ON".toList) ∧
    (pyUpper (pyStrip t) = "POWER ON".toList →
      OffPy.normalize_status (some t) = "ON".toList ∧
      QueryPy.normalize_status (some t) = "ON".toList ∧
      OnPy.normalize_status (some t) = "UNKNOWN".toList) := by
  constructor
  · intro h
    rcases h with h | h | h | h <;>
      exact ⟨by simp only [OnPy.normalize_status, h]; decide,
             by simp only [OffPy.normalize_status, h]; decide,
             by simp only [QueryPy.normalize_status, h]; decide⟩
  · intro h
    exact ⟨by simp only [OffPy.normalize_status, h]; decide,
           by simp only [QueryPy.normalize_status, h]; decide,
           by simp only [OnPy.normalize_status, h]; decide⟩

theorem c1_on_tokens_normalize_witness :
    (OnPy.normalize_status (some " Startup2 ".toList) = "ON".toList ∧
      OffPy.normalize_status (some " Startup2 ".toList) = "ON".toList ∧
      QueryPy.normalize_status (some " Startup2 ".toList) = "ON".toList) ∧
    (OffPy.normalize_status (some "power on".toList) = "ON".toList ∧
      QueryPy.normalize_status (some "power on".toList) = "ON".toList ∧
      OnPy.normalize_status (some "power on".toList) = "UNKNOWN".toList) :=
  ⟨(c1_on_tokens_normalize " Startup2 ".toList).1 (by decide),
   (c1_on_tokens_normalize "power on".toList).2 (by decide)⟩

/-- C6: normalization (query.py) is total onto the four canonical values —
including the absent token — and re-normalizing its output is the
identity, so it is idempotent on every canonical value it produces. -/
theorem c6_normalize_total_idempotent (s : Option (List Char)) :
    (QueryPy.normalize_status s = "ON".toList ∨ QueryPy.normalize_status s = "OFF".toList ∨
      QueryPy.normalize_status s = "COOLING".toList ∨
      QueryPy.normalize_status s = "UNKNOWN".toList) ∧
    QueryPy.normalize_status (some (QueryPy.normalize_status s)) =
      QueryPy.normalize_status s := by
  have htot : QueryPy.normalize_status s = "ON".toList ∨
      QueryPy.normalize_status s = "OFF".toList ∨
      QueryPy.normalize_status s = "COOLING".toList ∨
      QueryPy.normalize_status s = "UNKNOWN".toList := by
    cases s with
    | none => exact Or.inr (Or.inr (Or.inr (by decide)))
    | some t =>
      simp only [QueryPy.normalize_status]
      split_ifs with h1 h2 h3
      · exact Or.inl rfl
      · exact Or.inr (Or.inl rfl)
      · exact Or.inr (Or.inr (Or.inl rfl))
      · exact Or.inr (Or.inr (Or.inr rfl))
  refine ⟨htot, ?_⟩
  rcases htot with h | h | h | h <;> rw [h] <;> decide

/-- C8: any token whose trimmed upper-case form contains COOL or WARM as a
substring normalizes to COOLING in off.py and query.py. -/
theorem c8_cool_warm_normalize_cooling (t : List Char)
    (h : (substrB "COOL".toList (pyUpper (pyStrip t)) ||
          substrB "WARM".toList (pyUpper (pyStrip t))) = true) :
    OffPy.normalize_status (some t) = "COOLING".toList ∧
    QueryPy.normalize_status (some t) = "COOLING".toList := by
  constructor
  · simp only [OffPy.normalize_status]
    split_ifs with h1 h2
    · rcases h1 with h1 | h1 | h1 | h1 | h1 <;> rw [h1] at h <;> exact absurd h (by decide)
    · rcases h2 with h2 | h2 <;> rw [h2] at h <;> exact absurd h (by decide)
    · rfl
  · simp only [QueryPy.normalize_status]
    split_ifs with h1 h2
    · rcases h1 with h1 | h1 | h1 | h1 | h1 <;> rw [h1] at h <;> exact absurd h (by decide)
    · rcases h2 with h2 | h2 <;> rw [h2] at h <;> exact absurd h (by decide)
    · rfl

theorem c8_cool_warm_normalize_cooling_witness :
    ((substrB "COOL".toList (pyUpper (pyStrip " warmUp ".toList)) ||
       substrB "WARM".toList (pyUpper (pyStrip " warmUp ".toList))) = true) ∧
    OffPy.normalize_status (some " warmUp ".toList) = "COOLING".toList ∧
    QueryPy.normalize_status (some " warmUp ".toList) = "COOLING".toList :=
  ⟨by decide, c8_cool_warm_normalize_cooling " warmUp ".toList (by decide)⟩

/-- C9: the status-query entry point maps its outcome to the exit code
ON to 0, OFF to 2, COOLING to 3, UNKNOWN to 4, and a fetch error to 4. -/
theorem c9_query_exit_codes (page : Option (List Char)) :
    ((QueryPy.main page).1 = "ON".toList → (QueryPy.main page).2 = 0) ∧
    ((QueryPy.main page).1 = "OFF".toList → (QueryPy.main page).2 = 2) ∧
    ((QueryPy.main page).1 = "COOLING".toList → (QueryPy.main page).2 = 3) ∧
    ((QueryPy.main page).1 = "UNKNOWN".toList → (QueryPy.main page).2 = 4) ∧
    (page = none → (QueryPy.main page).2 = 4) := by
  cases page with
  | none =>
    exact ⟨fun h => absurd h (by decide), fun h => absurd h (by decide),
           fun h => absurd h (by decide), fun _ => rfl, fun _ => rfl⟩
  | some html =>
    simp only [QueryPy.main]
    refine ⟨fun h => ?_, fun h => ?_, fun h => ?_, fun h => ?_, fun h => Option.noConfusion h⟩
    all_goals rw [h]
    all_goals decide

theorem c9_query_exit_codes_witness :
    (QueryPy.main (some "var info_status_value = ['ON'];".toList)).2 = 0 ∧
    (QueryPy.main (some "var info_status_value = ['STANDBY'];".toList)).2 = 2 ∧
    (QueryPy.main (some "var info_status_value = ['COOLING'];".toList)).2 = 3 ∧
    (QueryPy.main (some "no declaration here".toList)).2 = 4 ∧
    (QueryPy.main none).2 = 4 :=
  ⟨(c9_query_exit_codes (some "var info_status_value = ['ON'];".toList)).1 (by decide),
   (c9_query_exit_codes (some "var info_status_value = ['STANDBY'];".toList)).2.1 (by decide),
   (c9_query_exit_codes (some "var info_status_value = ['COOLING'];".toList)).2.2.1 (by decide),
   (c9_query_exit_codes (some "no declaration here".toList)).2.2.2.1 (by decide),
   (c9_query_exit_codes none).2.2.2.2 rfl⟩

/-- C10: the duplicated normalizers of off.py and query.py agree on every
input, including the absent token. -/
theorem c10_off_query_normalizers_agree (s : Option (List Char)) :
    OffPy.normalize_status s = QueryPy.normalize_status s := rfl

/-- C7 counterexample: surrounding HTML is not arbitrary — a prefix that
itself matches STATUS_RE (here an empty bracket pair) wins the leftmost
search, so a text that does contain the full declaration extracts no token
at all instead of STARTUP2. -/
theorem c7_arbitrary_prefix_counterexample :
    OnPy.parse_info_status ("var info_status_value = [ ]".toList ++ statusDecl) = none ∧
    ¬OnPy.parse_info_status ("var info_status_value = [ ]".toList ++ statusDecl)
        = some "STARTUP2".toList := by decide

/-- C7 (amended): for every text whose compacted form splits as
`p ++ statusDecl ++ q` (the declaration may be split across CR/LF in the
original, since compaction removes them) such that STATUS_RE matches at no
position inside the prefix region, both extractors return STARTUP2 — the
first quoted literal, even though the array holds a second element — and
both normalizers map it to ON. -/
theorem c7_extraction_returns_startup2 (html p q : List Char)
    (hsplit : compactHtml html = p ++ statusDecl ++ q)
    (hpre : ∀ i, i < p.length → matchStatusAt ((compactHtml html).drop i) = none) :
    OnPy.parse_info_status html = some "STARTUP2".toList ∧
    OffPy.parse_info_status html = some "STARTUP2".toList ∧
    OnPy.normalize_status (OnPy.parse_info_status html) = "ON".toList ∧
    OffPy.normalize_status (OffPy.parse_info_status html) = "ON".toList := by
  have hmd : matchStatusAt statusDecl = some ("'STARTUP2','ignored'".toList, ";".toList) := by
    decide
  have hm := matchStatusAt_append statusDecl q _ _ hmd
  have hne : statusDecl ++ q ≠ [] := by
    intro hn
    have hl := congrArg List.length hn
    rw [List.length_append] at hl
    rw [show statusDecl.length = 47 from rfl, List.length_nil] at hl
    omega
  have hpre2 : ∀ i, i < p.length →
      matchStatusAt ((p ++ (statusDecl ++ q)).drop i) = none := by
    intro i hi
    rw [← List.append_assoc, ← hsplit]
    exact hpre i hi
  have hsearch := searchStatus_of_prefix_none p (statusDecl ++ q) _ _ hm hne hpre2
  have hs2 : searchStatus (compactHtml html) = some "'STARTUP2','ignored'".toList := by
    rw [hsplit, List.append_assoc]
    exact hsearch
  have hparse : OnPy.parse_info_status html = some "STARTUP2".toList := by
    unfold OnPy.parse_info_status
    rw [hs2]
    decide
  have hparse2 : OffPy.parse_info_status html = some "STARTUP2".toList := by
    unfold OffPy.parse_info_status
    rw [hs2]
    decide
  refine ⟨hparse, hparse2, ?_, ?_⟩
  · rw [hparse]
    decide
  · rw [hparse2]
    decide

theorem c7_extraction_returns_startup2_witness :
    OnPy.parse_info_status
        "<body>\nvar info_status_value =\n ['STARTUP2','ignored'];\n</body>".toList
      = some "STARTUP2".toList ∧
    OffPy.parse_info_status
        "<body>\nvar info_status_value =\n ['STARTUP2','ignored'];\n</body>".toList
      = some "STARTUP2".toList ∧
    OnPy.normalize_status (OnPy.parse_info_status
        "<body>\nvar info_status_value =\n ['STARTUP2','ignored'];\n</body>".toList)
      = "ON".toList ∧
    OffPy.normalize_status (OffPy.parse_info_status
        "<body>\nvar info_status_value =\n ['STARTUP2','ignored'];\n</body>".toList)
      = "ON".toList :=
  c7_extraction_returns_startup2
    "<body>\nvar info_status_value =\n ['STARTUP2','ignored'];\n</body>".toList
    "<body>".toList "</body>".toList (by decide) (by decide)
